import Mathlib

/-!
Verification of the DBF table-decoding engine (`dbf.py`).

The record area, the field-descriptor (schema) section and the record
payloads are modelled as lists of byte values (`List Nat`).  A 1-byte
read from a stream corresponds to pattern-matching the head of the list
(an empty list is an exhausted stream, where `read` returns no bytes);
a relative seek corresponds to `List.drop`.

External collaborators that are not part of this repository's source
(`FieldParser`, `FPT`, `parse_string`, `ifind`, `StructParser`) are
modelled as parameters gathered in the `Externals` structure, or from the
spec where noted.
-/

namespace Dbfread

/-- `expand_year` from `dbf.py`: convert a 2-digit year to a 4-digit year. -/
def expand_year (year : Nat) : Nat :=
  if year < 80 then 2000 + year else 1900 + year

/-- A field descriptor (`DBFField` namedtuple): the components relevant to the
decoding engine after `_read_headers` has fixed up `name` and `type`. -/
structure DBFField where
  name : String
  type : Char
  length : Nat
  decimal_count : Nat
  deriving Repr, DecidableEq

/-- A value produced by decoding one field slot: `None`, a number, a text
string, or a byte string (the possible Python values the engine manipulates). -/
inductive PValue where
  | none : PValue
  | num (n : Nat) : PValue
  | text (s : String) : PValue
  | bytes (bs : List Nat) : PValue
  deriving Repr, DecidableEq

/-- A memo record returned by the memo collaborator (`FPT.__getitem__`):
a kind tag (the text kind is the string `"memo"`) and payload bytes. -/
structure Memo where
  type : String
  data : List Nat
  deriving Repr, DecidableEq

/-- The external collaborators consumed by the engine:
`parse` is `FieldParser.parse`, `field_type_supported` is
`FieldParser.field_type_supported`, `memoLookup` is `FPT.__getitem__`
(indexed with the decoded memo pointer), and `decodeString` is
`parse_string(_, encoding)` with the table's resolved encoding. -/
structure Externals where
  parse : DBFField → List Nat → PValue
  field_type_supported : Char → Bool
  memoLookup : Nat → Memo
  decodeString : List Nat → String

/-- Errors raised by the engine (the `IOError`/`ValueError` cases of
`dbf.py`, plus the `struct.error` of a short fixed-size descriptor read). -/
inductive DbfError where
  | invalidSeparator (b : Nat) : DbfError
  | truncatedDescriptor : DbfError
  | emptySchema : DbfError
  | missingMemoFile : DbfError
  | badFieldLength (t : Char) (len : Nat) : DbfError
  | unknownFieldType (t : Char) : DbfError
  deriving Repr, DecidableEq

/-- A decoded record: the ordered `(field name, value)` pairs handed to
`recfactory` (modelled as the identity on the ordered sequence). -/
abbrev Rec := List (String × PValue)

/-- The number of payload bytes of one record:
`sum(field.length for field in self.fields)` (used by `_skip_record`). -/
def recordSize (fields : List DBFField) : Nat :=
  (fields.map (fun f => f.length)).sum

/-- Post-processing of a decoded memo field in `_read_record`:
`None` becomes the empty string; a numeric memo pointer is resolved through
the memo collaborator, whose payload is decoded as text when its kind tag is
`"memo"` and kept as bytes otherwise.  (`FPT` indexing with a non-integer,
non-`None` value is outside the modelled behaviour; such values pass
through unchanged.) -/
def parseMemoValue (ext : Externals) (v : PValue) : PValue :=
  match v with
  | .none => .text ""
  | .num n =>
    let memo := ext.memoLookup n
    if memo.type = "memo" then .text (ext.decodeString memo.data)
    else .bytes memo.data
  | v => v

/-- Decoding of one field slot in `_read_record`: read `field.length` bytes;
in raw mode keep the byte string unmodified, otherwise hand the bytes to the
field parser, with the extra memo treatment for fields of type `'M'`. -/
def readFieldValue (ext : Externals) (raw : Bool) (field : DBFField)
    (bytes : List Nat) : PValue :=
  let slot := bytes.take field.length
  if raw then .bytes slot
  else
    let v := ext.parse field slot
    if field.type = 'M' then parseMemoValue ext v else v

/-- `Table._read_record`: decode one record, consuming `field.length` bytes
per descriptor, in order. -/
def readRecord (ext : Externals) (raw : Bool) :
    List DBFField → List Nat → Rec
  | [], _ => []
  | f :: fs, bytes =>
    (f.name, readFieldValue ext raw f bytes) ::
      readRecord ext raw fs (bytes.drop f.length)

/-- `Table._iter_records` on the record area (the bytes from offset
`header.headerlen` on): read one marker byte per step; `0x1a` or an
exhausted stream ends the traversal, a byte other than `0x20`/`0x2a`
raises `invalid record separator`; an interesting record (matching the
requested lifecycle class) is decoded (`read = true`) or skipped
(`read = false`, yielding the `None` result of `_skip_record`); other
records are skipped without being yielded. -/
def iterRecords (ext : Externals) (raw : Bool) (fields : List DBFField)
    (deleted read : Bool) : List Nat → Except DbfError (List (Option Rec))
  | [] => .ok []
  | b :: rest =>
    if b = 0x1a then .ok []
    else if b = 0x20 ∨ b = 0x2a then
      let interesting : Bool := if deleted then b == 0x2a else b == 0x20
      let next := iterRecords ext raw fields deleted read
        (rest.drop (recordSize fields))
      if interesting then
        next.map (fun l =>
          (if read then some (readRecord ext raw fields rest) else none) :: l)
      else next
    else .error (.invalidSeparator b)
termination_by bs => bs.length
decreasing_by
  simp only [List.length_cons, List.length_drop]
  omega

/-- Modelled from the spec (`StructParser`, the fixed 32-byte `DBFField`
layout, and `parse_string` are external): decode one 32-byte field
descriptor — name bytes 0–10 decoded as text with the resolved encoding,
type the character at byte 11, length byte 16, decimal count byte 17. -/
def parseFieldDescriptor (ext : Externals) (bytes : List Nat) : DBFField :=
  { name := ext.decodeString (bytes.take 11)
    type := Char.ofNat (bytes.getD 11 0)
    length := bytes.getD 16 0
    decimal_count := bytes.getD 17 0 }

/-- The field-descriptor loop of `Table._read_headers`, on the bytes
following the 32-byte table header: read one separator byte; the loop
breaks only when it equals `0x0d` (the other members of the Python
terminator tuple, the str values `'\n'` and `''`, never equal a bytes
object); otherwise that byte is prepended to the fixed-size 32-byte
descriptor read (31 further bytes), which fails if the stream is too
short — in particular an exhausted stream is not a terminator and makes
the descriptor read fail. -/
def readFieldDescriptors (ext : Externals) :
    List Nat → Except DbfError (List DBFField)
  | [] => .error .truncatedDescriptor
  | b :: rest =>
    if b = 0x0d then .ok []
    else if rest.length < 31 then .error .truncatedDescriptor
    else
      (readFieldDescriptors ext (rest.drop 31)).map
        (fun fs => parseFieldDescriptor ext (b :: rest.take 31) :: fs)
termination_by bs => bs.length
decreasing_by
  simp only [List.length_cons, List.length_drop]
  omega

/-- The checks of `Table._read_headers` after the descriptor loop: a table
must have at least one field, and if any field has the memo type `'M'` a
companion memo file must be found on disk (`ifind` with extension `.fpt`,
modelled by the flag `fptFound`) — otherwise `Missing memo file` is
raised, regardless of raw mode. -/
def readSchema (ext : Externals) (bytes : List Nat) (fptFound : Bool) :
    Except DbfError (List DBFField) :=
  match readFieldDescriptors ext bytes with
  | .error e => .error e
  | .ok fields =>
    if fields.length < 1 then .error .emptySchema
    else if fields.any (fun f => f.type = 'M') ∧ fptFound = false then
      .error .missingMemoFile
    else .ok fields

/-- `Table._check_headers`: per-field structural validation, in order —
type `'0'` requires length 1, type `'I'` requires length 4, type `'L'`
requires length 1, and any remaining field whose type code the field
parser does not support is an unknown field type. -/
def checkHeaders (supported : Char → Bool) :
    List DBFField → Except DbfError Unit
  | [] => .ok ()
  | f :: fs =>
    if f.type = '0' ∧ f.length ≠ 1 then .error (.badFieldLength '0' f.length)
    else if f.type = 'I' ∧ f.length ≠ 4 then
      .error (.badFieldLength 'I' f.length)
    else if f.type = 'L' ∧ f.length ≠ 1 then
      .error (.badFieldLength 'L' f.length)
    else if supported f.type = false then .error (.unknownFieldType f.type)
    else checkHeaders supported fs

/-- The outcome of `Table.__init__`'s header phase: the validated field
sequence, the raw flag, whether a memo filename was resolved
(`self.memofilename`), and whether the memo collaborator was opened
(`self.memofile = FPT(...)` versus `None`). -/
structure Table where
  fields : List DBFField
  raw : Bool
  memofilename : Bool
  memofile : Bool
  deriving Repr, DecidableEq

/-- `Table.__init__` up to the memo-file decision: run `_read_headers`
(descriptor loop, empty-schema check, memo-file resolution) and
`_check_headers`, then open the memo collaborator exactly when a memo
filename was resolved and the table is not in raw mode. -/
def mkTable (ext : Externals) (raw : Bool) (schemaBytes : List Nat)
    (fptFound : Bool) : Except DbfError Table :=
  match readSchema ext schemaBytes fptFound with
  | .error e => .error e
  | .ok fields =>
    match checkHeaders ext.field_type_supported fields with
    | .error e => .error e
    | .ok _ =>
      let memofilename := fields.any (fun f => f.type = 'M')
      .ok { fields := fields, raw := raw, memofilename := memofilename
            memofile := memofilename && !raw }

/-- `RecordIterator.__iter__`, materialised: iterate `_iter_records` with
`read=True` over the record area for the iterator's lifecycle class. -/
def recordIteratorToList (ext : Externals) (raw : Bool)
    (fields : List DBFField) (deleted : Bool) (area : List Nat) :
    Except DbfError (List (Option Rec)) :=
  iterRecords ext raw fields deleted true area

/-- `RecordIterator.__len__`: count the yields of `_iter_records` with
`read=False` (the skip-only traversal that never decodes field bytes). -/
def recordIteratorLen (ext : Externals) (raw : Bool)
    (fields : List DBFField) (deleted : Bool) (area : List Nat) :
    Except DbfError Nat :=
  (iterRecords ext raw fields deleted false area).map List.length

/-- The materialised record sequences produced by `Table.load`. -/
structure LoadedTable where
  records : Except DbfError (List (Option Rec))
  deleted : Except DbfError (List (Option Rec))

/-- `Table.load`: populate `self.records` and `self.deleted` once with
`list(RecordIterator(self))` and `list(RecordIterator(self, deleted=True))`. -/
def loadTable (ext : Externals) (raw : Bool) (fields : List DBFField)
    (area : List Nat) : LoadedTable :=
  { records := recordIteratorToList ext raw fields false area
    deleted := recordIteratorToList ext raw fields true area }

/-- A record area laid out as the spec's binary contract describes a valid
one: a list of records, each a 1-byte marker followed by its payload bytes,
then a trailing byte sequence (empty at physical end-of-file, or starting
with the `0x1a` terminator). -/
def buildArea : List (Nat × List Nat) → List Nat → List Nat
  | [], tail => tail
  | r :: rs, tail => r.1 :: (r.2 ++ buildArea rs tail)

/-- Following the spec's words: the number of marker bytes in the record
area equal to the active marker `0x20`. -/
def specActiveMarkerCount (recs : List (Nat × List Nat)) : Nat :=
  recs.countP (fun r => r.1 == 0x20)

/-- A default field descriptor, used as the fallback of positional lookups. -/
def dfltField : DBFField :=
  { name := "", type := 'C', length := 0, decimal_count := 0 }

/-- A concrete instantiation of the external collaborators, used to
evaluate the engine on concrete inputs: the field parser decodes every
slot as the memo pointer 7, and the memo collaborator returns text-kind
payloads. -/
def extW : Externals :=
  { parse := fun _ _ => .num 7
    field_type_supported := fun _ => true
    memoLookup := fun n => { type := "memo", data := [n, 65] }
    decodeString := fun bs => String.mk (bs.map Char.ofNat) }

/-- A second concrete instantiation whose memo collaborator returns
binary-kind payloads. -/
def extB : Externals :=
  { parse := fun _ _ => .num 3
    field_type_supported := fun _ => true
    memoLookup := fun _ => { type := "binary", data := [9, 8] }
    decodeString := fun bs => String.mk (bs.map Char.ofNat) }

/-- A concrete descriptor section: one 32-byte descriptor (name starting
`0x41`, type byte `0x43` = `'C'`, length byte 1) followed by the `0x0d`
terminator. -/
def wBytes : List Nat :=
  [0x41, 0, 0, 0, 0, 0, 0, 0, 0, 0, 0, 0x43, 0, 0, 0, 0, 1,
   0, 0, 0, 0, 0, 0, 0, 0, 0, 0, 0, 0, 0, 0, 0, 0x0d]

/-- A concrete descriptor section like `wBytes` but with the memo type
byte `0x4d` = `'M'` and length byte 4. -/
def wMemoBytes : List Nat :=
  [0x41, 0, 0, 0, 0, 0, 0, 0, 0, 0, 0, 0x4d, 0, 0, 0, 0, 4,
   0, 0, 0, 0, 0, 0, 0, 0, 0, 0, 0, 0, 0, 0, 0, 0x0d]

/-- C4: century expansion maps a 2-digit year below 80 to `2000 + year`
and a year of 80 or more to `1900 + year`; in particular 0 ↦ 2000,
79 ↦ 2079, 80 ↦ 1980 and 99 ↦ 1999 — the boundary is exactly at 80. -/
theorem expand_year_century_boundary :
    (∀ y : Nat, y < 80 → expand_year y = 2000 + y) ∧
    (∀ y : Nat, 80 ≤ y → expand_year y = 1900 + y) ∧
    expand_year 0 = 2000 ∧ expand_year 79 = 2079 ∧
    expand_year 80 = 1980 ∧ expand_year 99 = 1999 := by
  refine ⟨fun y hy => ?_, fun y hy => ?_, by decide, by decide, by decide,
    by decide⟩
  · simp [expand_year, hy]
  · simp [expand_year, Nat.not_lt.mpr hy]

/-- Witness for C4: the two guarded clauses evaluated at years 5 and 85. -/
theorem expand_year_century_boundary_witness :
    expand_year 5 = 2005 ∧ expand_year 85 = 1985 :=
  ⟨expand_year_century_boundary.1 5 (by decide),
   expand_year_century_boundary.2.1 85 (by decide)⟩

/-- C7: a schema whose decoded field-descriptor sequence is empty makes
table construction fail with the empty-schema error, before any record is
read — in particular when the descriptor section starts directly with the
`0x0d` terminator. -/
theorem empty_schema_fatal :
    (∀ ext bytes fptFound, readFieldDescriptors ext bytes = .ok [] →
      readSchema ext bytes fptFound = .error .emptySchema) ∧
    (∀ ext raw rest fptFound,
      readSchema ext (0x0d :: rest) fptFound = .error .emptySchema ∧
      mkTable ext raw (0x0d :: rest) fptFound = .error .emptySchema) := by
  constructor
  · intro ext bytes fptFound h
    simp [readSchema, h]
  · intro ext raw rest fptFound
    have hdesc : readFieldDescriptors ext (0x0d :: rest) = .ok [] := by
      rw [readFieldDescriptors]; simp
    have hs : readSchema ext (0x0d :: rest) fptFound =
        .error .emptySchema := by
      simp [readSchema, hdesc]
    exact ⟨hs, by simp [mkTable, hs]⟩

/-- Witness for C7: an empty descriptor list (terminator byte first) is
rejected as an empty schema. -/
theorem empty_schema_fatal_witness :
    readSchema extW [0x0d] true = .error .emptySchema :=
  empty_schema_fatal.1 extW [0x0d] true (by rw [readFieldDescriptors]; simp)

/-- C5 (behaviour at a descriptor boundary): reading one byte, the value
`0x0d` ends the schema section; any other byte value is prepended to the
fixed-size 32-byte descriptor read; but an exhausted stream does NOT end
the schema section — the terminator test of `_read_headers` compares the
bytes result of `read(1)` with the str values `'\n'` and `''`, which never
equal a bytes object, so exhaustion falls through to the fixed-size
descriptor read, which fails. -/
theorem readFieldDescriptors_boundary :
    (∀ ext rest, readFieldDescriptors ext (0x0d :: rest) = .ok []) ∧
    (∀ ext, readFieldDescriptors ext [] = .error .truncatedDescriptor) ∧
    (∀ ext b rest, b ≠ 0x0d → 31 ≤ rest.length →
      readFieldDescriptors ext (b :: rest) =
        (readFieldDescriptors ext (rest.drop 31)).map
          (fun fs => parseFieldDescriptor ext (b :: rest.take 31) :: fs)) := by
  refine ⟨fun ext rest => ?_, fun ext => ?_, fun ext b rest hb hlen => ?_⟩
  · rw [readFieldDescriptors]; simp
  · rw [readFieldDescriptors]
  · rw [readFieldDescriptors]
    simp [hb, Nat.not_lt.mpr hlen]

/-- Witness for C5: a non-terminator byte followed by 31 further bytes is
prepended to a full descriptor read. -/
theorem readFieldDescriptors_boundary_witness :
    readFieldDescriptors extW (0x41 :: List.replicate 31 0) =
      (readFieldDescriptors extW ((List.replicate 31 (0 : Nat)).drop 31)).map
        (fun fs =>
          parseFieldDescriptor extW
            (0x41 :: (List.replicate 31 (0 : Nat)).take 31) :: fs) :=
  readFieldDescriptors_boundary.2.2 extW 0x41 (List.replicate 31 0)
    (by decide) (by simp)

/-- Helper: `_check_headers` succeeds exactly when every field satisfies
its type's length constraint and its type code is supported. -/
theorem checkHeaders_ok_iff (supported : Char → Bool)
    (fields : List DBFField) :
    checkHeaders supported fields = .ok () ↔
      ∀ f ∈ fields, (f.type = '0' → f.length = 1) ∧
        (f.type = 'I' → f.length = 4) ∧ (f.type = 'L' → f.length = 1) ∧
        supported f.type = true := by
  induction fields with
  | nil => simp [checkHeaders]
  | cons f fs ih =>
    rw [checkHeaders]
    split_ifs with h1 h2 h3 h4
    · simp only [Except.error.injEq, false_iff]
      intro hall
      exact h1.2 ((hall f (by simp)).1 h1.1)
    · simp only [Except.error.injEq, false_iff]
      intro hall
      exact h2.2 ((hall f (by simp)).2.1 h2.1)
    · simp only [Except.error.injEq, false_iff]
      intro hall
      exact h3.2 ((hall f (by simp)).2.2.1 h3.1)
    · simp only [Except.error.injEq, false_iff]
      intro hall
      have := (hall f (by simp)).2.2.2
      rw [h4] at this
      exact Bool.false_ne_true this
    · rw [ih]
      constructor
      · intro hall g hg
        rcases List.mem_cons.mp hg with hg | hg
        · subst hg
          refine ⟨fun ht => ?_, fun ht => ?_, fun ht => ?_, ?_⟩
          · by_contra hne
            exact h1 ⟨ht, hne⟩
          · by_contra hne
            exact h2 ⟨ht, hne⟩
          · by_contra hne
            exact h3 ⟨ht, hne⟩
          · cases hsupp : supported g.type with
            | false => exact absurd hsupp h4
            | true => rfl
        · exact hall g hg
      · intro hall g hg
        exact hall g (List.mem_cons_of_mem f hg)

/-- C6: schema validation rejects a field of type `'0'` whose length is
not 1, a field of type `'I'` whose length is not 4, and a field of type
`'L'` whose length is not 1, each with the corresponding bad-length
error; a remaining field whose type code the field parser does not
support is rejected as an unknown field type; validation succeeds exactly
when no field violates these rules, and every successfully constructed
table has passed it (it runs at open time, before any record is read). -/
theorem checkHeaders_validation :
    (∀ (supported : Char → Bool) (f : DBFField) fs, f.type = '0' →
      f.length ≠ 1 →
      checkHeaders supported (f :: fs) = .error (.badFieldLength '0' f.length)) ∧
    (∀ (supported : Char → Bool) (f : DBFField) fs, f.type = 'I' →
      f.length ≠ 4 →
      checkHeaders supported (f :: fs) = .error (.badFieldLength 'I' f.length)) ∧
    (∀ (supported : Char → Bool) (f : DBFField) fs, f.type = 'L' →
      f.length ≠ 1 →
      checkHeaders supported (f :: fs) = .error (.badFieldLength 'L' f.length)) ∧
    (∀ (supported : Char → Bool) (f : DBFField) fs,
      supported f.type = false →
      (f.type = '0' → f.length = 1) → (f.type = 'I' → f.length = 4) →
      (f.type = 'L' → f.length = 1) →
      checkHeaders supported (f :: fs) = .error (.unknownFieldType f.type)) ∧
    (∀ (supported : Char → Bool) (fields : List DBFField),
      checkHeaders supported fields = .ok () ↔
        ∀ f ∈ fields, (f.type = '0' → f.length = 1) ∧
          (f.type = 'I' → f.length = 4) ∧ (f.type = 'L' → f.length = 1) ∧
          supported f.type = true) ∧
    (∀ ext raw bytes fptFound t, mkTable ext raw bytes fptFound = .ok t →
      checkHeaders ext.field_type_supported t.fields = .ok ()) := by
  refine ⟨?_, ?_, ?_, ?_, checkHeaders_ok_iff, ?_⟩
  · intro supported f fs ht hlen
    rw [checkHeaders, ht]
    simp [hlen]
  · intro supported f fs ht hlen
    rw [checkHeaders, ht]
    have hne : ('I' : Char) ≠ '0' := by decide
    simp [hlen, hne]
  · intro supported f fs ht hlen
    rw [checkHeaders, ht]
    have hne0 : ('L' : Char) ≠ '0' := by decide
    have hneI : ('L' : Char) ≠ 'I' := by decide
    simp [hlen, hne0, hneI]
  · intro supported f fs hsupp h0 hI hL
    rw [checkHeaders]
    have h1 : ¬(f.type = '0' ∧ f.length ≠ 1) := fun h => h.2 (h0 h.1)
    have h2 : ¬(f.type = 'I' ∧ f.length ≠ 4) := fun h => h.2 (hI h.1)
    have h3 : ¬(f.type = 'L' ∧ f.length ≠ 1) := fun h => h.2 (hL h.1)
    rw [if_neg h1, if_neg h2, if_neg h3, if_pos hsupp]
  · intro ext raw bytes fptFound t hmk
    unfold mkTable at hmk
    rcases hschema : readSchema ext bytes fptFound with e | fields <;>
      simp only [hschema] at hmk
    · exact absurd hmk (by simp)
    · rcases hchk : checkHeaders ext.field_type_supported fields with e | u <;>
        simp only [hchk] at hmk
      · exact absurd hmk (by simp)
      · cases u
        injection hmk with h
        subst h
        simpa using hchk

/-- Witness for C6: each rejection clause evaluated at a concrete
descriptor, and the success iff at a valid singleton schema. -/
theorem checkHeaders_validation_witness :
    checkHeaders extW.field_type_supported
        [{ name := "a", type := '0', length := 3, decimal_count := 0 }] =
      .error (.badFieldLength '0' 3) ∧
    checkHeaders extW.field_type_supported
        [{ name := "b", type := 'I', length := 2, decimal_count := 0 }] =
      .error (.badFieldLength 'I' 2) ∧
    checkHeaders extW.field_type_supported
        [{ name := "c", type := 'L', length := 5, decimal_count := 0 }] =
      .error (.badFieldLength 'L' 5) ∧
    checkHeaders (fun _ => false)
        [{ name := "d", type := 'X', length := 2, decimal_count := 0 }] =
      .error (.unknownFieldType 'X') ∧
    checkHeaders extW.field_type_supported
        [{ name := "e", type := 'C', length := 10, decimal_count := 0 }] =
      .ok () :=
  ⟨checkHeaders_validation.1 extW.field_type_supported _ [] rfl (by decide),
   checkHeaders_validation.2.1 extW.field_type_supported _ [] rfl (by decide),
   checkHeaders_validation.2.2.1 extW.field_type_supported _ [] rfl
     (by decide),
   checkHeaders_validation.2.2.2.1 (fun _ => false) _ [] rfl
     (fun h => absurd h (by decide)) (fun h => absurd h (by decide))
     (fun h => absurd h (by decide)),
   (checkHeaders_validation.2.2.2.2.1 extW.field_type_supported _).mpr
     (by intro f hf; simp at hf; subst hf; refine ⟨?_, ?_, ?_, rfl⟩ <;>
       intro h <;> exact absurd h (by decide))⟩

/-- C1: at each iteration step the traversal reads exactly the one marker
byte at the current record boundary — an exhausted stream or the `0x1a`
sentinel ends the iteration, `0x20` classifies the record as active
(yielded in active mode, skipped in deleted mode), `0x2a` classifies it
as deleted (yielded in deleted mode, skipped in active mode), and any
other byte value aborts the traversal at once with the
invalid-record-separator error, whatever bytes follow. -/
theorem iterRecords_marker_classification :
    (∀ ext raw fields deleted read,
      iterRecords ext raw fields deleted read [] = .ok []) ∧
    (∀ ext raw fields deleted read rest,
      iterRecords ext raw fields deleted read (0x1a :: rest) = .ok []) ∧
    (∀ ext raw fields deleted read (b : Nat) rest, b ≠ 0x20 → b ≠ 0x2a →
      b ≠ 0x1a →
      iterRecords ext raw fields deleted read (b :: rest) =
        .error (.invalidSeparator b)) ∧
    (∀ ext raw fields read rest,
      iterRecords ext raw fields false read (0x20 :: rest) =
        (iterRecords ext raw fields false read
            (rest.drop (recordSize fields))).map
          (fun l =>
            (if read then some (readRecord ext raw fields rest) else none) ::
              l) ∧
      iterRecords ext raw fields true read (0x20 :: rest) =
        iterRecords ext raw fields true read
          (rest.drop (recordSize fields))) ∧
    (∀ ext raw fields read rest,
      iterRecords ext raw fields true read (0x2a :: rest) =
        (iterRecords ext raw fields true read
            (rest.drop (recordSize fields))).map
          (fun l =>
            (if read then some (readRecord ext raw fields rest) else none) ::
              l) ∧
      iterRecords ext raw fields false read (0x2a :: rest) =
        iterRecords ext raw fields false read
          (rest.drop (recordSize fields))) := by
  refine ⟨fun ext raw fields deleted read => ?_,
    fun ext raw fields deleted read rest => ?_,
    fun ext raw fields deleted read b rest hb1 hb2 hb3 => ?_,
    fun ext raw fields read rest => ⟨?_, ?_⟩,
    fun ext raw fields read rest => ⟨?_, ?_⟩⟩
  · rw [iterRecords]
  · rw [iterRecords]
    simp
  · rw [iterRecords]
    simp [hb1, hb2, hb3]
  · rw [iterRecords]
    simp
  · rw [iterRecords]
    simp
  · rw [iterRecords]
    simp
  · rw [iterRecords]
    simp

/-- Witness for C1: the marker byte `0x41` (`'A'`) aborts a concrete
traversal with the invalid-record-separator error. -/
theorem iterRecords_marker_classification_witness :
    iterRecords extW false [] false true [0x41, 0x20] =
      .error (.invalidSeparator 0x41) :=
  iterRecords_marker_classification.2.2.1 extW false [] false true 0x41
    [0x20] (by decide) (by decide) (by decide)

/-- C2: for each lifecycle class, the sequence of records produced by a
lazy (unloaded) iteration equals, element for element and in the same
order, the sequence `load` materialises — both are produced by driving
`_iter_records` with `read=True` over the same record area. -/
theorem loaded_unloaded_equivalence :
    ∀ ext raw fields area (deleted : Bool),
      recordIteratorToList ext raw fields deleted area =
        (if deleted then (loadTable ext raw fields area).deleted
         else (loadTable ext raw fields area).records) := by
  intro ext raw fields area deleted
  cases deleted <;> rfl

/-- C9: decoding a memo-typed field outside raw mode renders a `None`
parse result as the empty text string; otherwise the decoded number is a
memo pointer, and the resolved payload is decoded as text with the
table's resolved encoding when its kind tag is `"memo"` (the text kind),
and kept as the unmodified payload bytes when its kind tag is
`"binary"`. -/
theorem memo_field_decoding :
    ∀ ext (f : DBFField) bytes, f.type = 'M' →
    (ext.parse f (bytes.take f.length) = .none →
      readFieldValue ext false f bytes = .text "") ∧
    (∀ n, ext.parse f (bytes.take f.length) = .num n →
      ((ext.memoLookup n).type = "memo" →
        readFieldValue ext false f bytes =
          .text (ext.decodeString (ext.memoLookup n).data)) ∧
      ((ext.memoLookup n).type = "binary" →
        readFieldValue ext false f bytes =
          .bytes (ext.memoLookup n).data)) := by
  intro ext f bytes hM
  constructor
  · intro hparse
    rw [readFieldValue]
    simp only [hM, hparse, if_neg Bool.false_ne_true, if_pos rfl]
    rw [parseMemoValue]
    simp
  · intro n hparse
    constructor
    · intro htag
      rw [readFieldValue]
      simp only [hM, hparse, if_neg Bool.false_ne_true, if_pos rfl]
      rw [parseMemoValue]
      simp [htag]
    · intro htag
      rw [readFieldValue]
      simp only [hM, hparse, if_neg Bool.false_ne_true, if_pos rfl]
      rw [parseMemoValue]
      have hne : ("binary" : String) ≠ "memo" := by decide
      rw [htag]
      simp [hne]

/-- Witness for C9: with a text-kind memo collaborator the pointer slot
decodes to the decoded payload text, and with a binary-kind collaborator
to the raw payload bytes. -/
theorem memo_field_decoding_witness :
    readFieldValue extW false
        { name := "m", type := 'M', length := 4, decimal_count := 0 }
        [48, 48, 48, 55] =
      .text (extW.decodeString [7, 65]) ∧
    readFieldValue extB false
        { name := "m", type := 'M', length := 4, decimal_count := 0 }
        [48, 48, 48, 51] =
      .bytes [9, 8] :=
  ⟨((memo_field_decoding extW
        { name := "m", type := 'M', length := 4, decimal_count := 0 }
        [48, 48, 48, 55] rfl).2 7 rfl).1 rfl,
   ((memo_field_decoding extB
        { name := "m", type := 'M', length := 4, decimal_count := 0 }
        [48, 48, 48, 51] rfl).2 3 rfl).2 rfl⟩

/-- Helper: in raw mode the record decoder never consults the external
collaborators — its result is the same for any two of them. -/
theorem readRecord_raw_ext (ext ext2 : Externals) :
    ∀ (fields : List DBFField) (bytes : List Nat),
      readRecord ext true fields bytes = readRecord ext2 true fields bytes := by
  intro fields
  induction fields with
  | nil => intro bytes; rfl
  | cons f fs ih =>
    intro bytes
    rw [readRecord, readRecord, ih]
    simp [readFieldValue]

/-- Helper: in raw mode the `i`-th field of a decoded record is named by
the `i`-th descriptor and carries exactly the bytes of its slot — the
`fields.take i`-sized prefix of lengths away from the start of the
payload — and the slot has the declared length when the payload is long
enough. -/
theorem readRecord_raw_get (ext : Externals) :
    ∀ (fields : List DBFField) (bytes : List Nat) (i : Nat),
      recordSize fields ≤ bytes.length → i < fields.length →
      (readRecord ext true fields bytes).getD i ("", .none) =
        ((fields.getD i dfltField).name,
          .bytes ((bytes.drop (recordSize (fields.take i))).take
            (fields.getD i dfltField).length)) ∧
      ((bytes.drop (recordSize (fields.take i))).take
        (fields.getD i dfltField).length).length =
        (fields.getD i dfltField).length := by
  intro fields
  induction fields with
  | nil =>
    intro bytes i h hi
    simp at hi
  | cons f fs ih =>
    intro bytes i h hi
    have hsz : recordSize (f :: fs) = f.length + recordSize fs := by
      simp [recordSize]
    cases i with
    | zero =>
      refine ⟨?_, ?_⟩
      · rw [readRecord]
        simp [readFieldValue, recordSize]
      · simp only [List.take_zero, recordSize, List.map_nil, List.sum_nil,
          List.drop_zero, List.getD_cons_zero, List.length_take]
        rw [hsz] at h
        omega
    | succ i =>
      have h' : recordSize fs ≤ (bytes.drop f.length).length := by
        rw [List.length_drop]
        rw [hsz] at h
        omega
      have hi' : i < fs.length := by
        simpa using Nat.lt_of_succ_lt_succ hi
      have hrec := ih (bytes.drop f.length) i h' hi'
      have hoff : recordSize ((f :: fs).take (i + 1)) =
          f.length + recordSize (fs.take i) := by
        simp [recordSize]
      rw [readRecord]
      simp only [List.getD_cons_succ, hoff, ← List.drop_drop]
      exact hrec

/-- C8: in raw mode every field of a decoded record is the exact
unmodified byte string of that field's slot, of length equal to the
field's declared byte length, and the field-type decoder is never
called — the result does not depend on the external collaborators. -/
theorem readRecord_raw_mode :
    (∀ ext ext2 fields bytes,
      readRecord ext true fields bytes = readRecord ext2 true fields bytes) ∧
    (∀ ext (fields : List DBFField) (bytes : List Nat) (i : Nat),
      recordSize fields ≤ bytes.length → i < fields.length →
      (readRecord ext true fields bytes).getD i ("", .none) =
        ((fields.getD i dfltField).name,
          .bytes ((bytes.drop (recordSize (fields.take i))).take
            (fields.getD i dfltField).length)) ∧
      ((bytes.drop (recordSize (fields.take i))).take
        (fields.getD i dfltField).length).length =
        (fields.getD i dfltField).length) :=
  ⟨readRecord_raw_ext, readRecord_raw_get⟩

/-- Witness for C8: a two-field raw record over a concrete payload — the
second field's value is exactly its one-byte slot. -/
theorem readRecord_raw_mode_witness :
    (readRecord extW true
        [{ name := "a", type := 'C', length := 2, decimal_count := 0 },
         { name := "b", type := 'C', length := 1, decimal_count := 0 }]
        [65, 66, 67]).getD 1 ("", .none) = ("b", .bytes [67]) := by
  have h := (readRecord_raw_mode.2 extW
    [{ name := "a", type := 'C', length := 2, decimal_count := 0 },
     { name := "b", type := 'C', length := 1, decimal_count := 0 }]
    [65, 66, 67] 1 (by decide) (by decide)).1
  rw [h]
  rfl

/-- C10: when the table is constructed in raw mode the memo collaborator
is never opened (the memo-file handle stays unset) even when memo-typed
fields are present; every memo-typed field decodes to the raw bytes of
its pointer slot with the memo resolver never invoked (the raw decode is
independent of the external collaborators); yet a schema containing a
memo-typed field still fails construction with the missing-memo-file
error when no companion memo file resolves on disk, raw mode or not. -/
theorem raw_mode_memo_handling :
    (∀ ext schemaBytes fptFound t,
      mkTable ext true schemaBytes fptFound = .ok t → t.memofile = false) ∧
    (∀ ext ext2 (f : DBFField) bytes, f.type = 'M' →
      readFieldValue ext true f bytes = .bytes (bytes.take f.length) ∧
      readFieldValue ext true f bytes = readFieldValue ext2 true f bytes) ∧
    (∀ ext schemaBytes (fields : List DBFField),
      readFieldDescriptors ext schemaBytes = .ok fields →
      fields.any (fun f => f.type = 'M') = true →
      ∀ raw, mkTable ext raw schemaBytes false = .error .missingMemoFile) := by
  refine ⟨?_, ?_, ?_⟩
  · intro ext schemaBytes fptFound t hmk
    unfold mkTable at hmk
    rcases hschema : readSchema ext schemaBytes fptFound with e | fields <;>
      simp only [hschema] at hmk
    · exact absurd hmk (by simp)
    · rcases hchk : checkHeaders ext.field_type_supported fields with e | u <;>
        simp only [hchk] at hmk
      · exact absurd hmk (by simp)
      · injection hmk with h
        subst h
        simp
  · intro ext ext2 f bytes hM
    exact ⟨by simp [readFieldValue], by simp [readFieldValue]⟩
  · intro ext schemaBytes fields hdesc hany raw
    have hne : fields ≠ [] := by
      rcases List.any_eq_true.mp hany with ⟨f, hf, -⟩
      exact List.ne_nil_of_mem hf
    have hlen : ¬(fields.length < 1) := by
      have := List.length_pos.mpr hne
      omega
    have hs : readSchema ext schemaBytes false = .error .missingMemoFile := by
      unfold readSchema
      simp only [hdesc]
      simp [hlen, hany]
    unfold mkTable
    simp [hs]

/-- Witness for C10: a raw-mode table built from the plain `wBytes`
schema has no memo collaborator; a memo slot decodes to its raw bytes;
and the `wMemoBytes` schema without a companion memo file fails
construction even in raw mode. -/
theorem raw_mode_memo_handling_witness :
    (∃ t, mkTable extW true wBytes true = .ok t ∧ t.memofile = false) ∧
    readFieldValue extW true
        { name := "m", type := 'M', length := 4, decimal_count := 0 }
        [1, 2, 3, 4, 5] = .bytes [1, 2, 3, 4] ∧
    mkTable extW true wMemoBytes false = .error .missingMemoFile := by
  have hterm : readFieldDescriptors extW [0x0d] = .ok [] := by
    rw [readFieldDescriptors]
    norm_num
  have hdescW : readFieldDescriptors extW wBytes =
      .ok [parseFieldDescriptor extW (wBytes.take 32)] := by
    rw [show wBytes = 0x41 :: wBytes.tail from rfl, readFieldDescriptors]
    have hl : ¬(wBytes.tail.length < 31) := by decide
    have hd : wBytes.tail.drop 31 = [0x0d] := rfl
    rw [if_neg (by decide : ¬((0x41 : Nat) = 0x0d)), if_neg hl, hd, hterm]
    rfl
  have hdescM : readFieldDescriptors extW wMemoBytes =
      .ok [parseFieldDescriptor extW (wMemoBytes.take 32)] := by
    rw [show wMemoBytes = 0x41 :: wMemoBytes.tail from rfl,
      readFieldDescriptors]
    have hl : ¬(wMemoBytes.tail.length < 31) := by decide
    have hd : wMemoBytes.tail.drop 31 = [0x0d] := rfl
    rw [if_neg (by decide : ¬((0x41 : Nat) = 0x0d)), if_neg hl, hd, hterm]
    rfl
  refine ⟨?_, ?_, ?_⟩
  · have hschema : readSchema extW wBytes true =
        .ok [parseFieldDescriptor extW (wBytes.take 32)] := by
      unfold readSchema
      rw [hdescW]
      norm_num
    have hmk : mkTable extW true wBytes true =
        .ok { fields := [parseFieldDescriptor extW (wBytes.take 32)],
              raw := true, memofilename := false, memofile := false } := by
      unfold mkTable
      rw [hschema]
      rfl
    exact ⟨_, hmk, raw_mode_memo_handling.1 extW wBytes true _ hmk⟩
  · exact ((raw_mode_memo_handling.2.1 extW extB
      { name := "m", type := 'M', length := 4, decimal_count := 0 }
      [1, 2, 3, 4, 5] rfl).1).trans rfl
  · exact raw_mode_memo_handling.2.2 extW wMemoBytes
      [parseFieldDescriptor extW (wMemoBytes.take 32)] hdescM (by rfl) true

/-- Helper: the skip-only traversal (`read=False`) never decodes field
bytes — its outcome is the same for any external collaborators and any
raw flag, over every record area. -/
theorem iterRecords_skip_ext (ext ext2 : Externals) (raw raw2 : Bool)
    (fields : List DBFField) (deleted : Bool) :
    ∀ area, iterRecords ext raw fields deleted false area =
      iterRecords ext2 raw2 fields deleted false area := by
  have key : ∀ n area, area.length ≤ n →
      iterRecords ext raw fields deleted false area =
        iterRecords ext2 raw2 fields deleted false area := by
    intro n
    induction n with
    | zero =>
      intro area h
      have : area = [] := List.length_eq_zero.mp (Nat.le_zero.mp h)
      subst this
      rw [iterRecords, iterRecords]
    | succ n ih =>
      intro area h
      match area with
      | [] => rw [iterRecords, iterRecords]
      | b :: rest =>
        rw [iterRecords, iterRecords]
        by_cases hb : b = 0x1a
        · simp [hb]
        · by_cases hb2 : b = 0x20 ∨ b = 0x2a
          · have hrest : (rest.drop (recordSize fields)).length ≤ n := by
              simp only [List.length_cons] at h
              simp only [List.length_drop]
              omega
            have hrec := ih (rest.drop (recordSize fields)) hrest
            simp only [if_neg hb, if_pos hb2, hrec]
            simp
          · simp [hb, hb2]
  intro area
  exact key area.length area le_rfl

/-- Helper: over a record area laid out from well-formed records (each a
`0x20`/`0x2a` marker plus a payload of exactly the record size) and a
terminating tail, the active-class traversal succeeds and yields one
item per `0x20` marker, in both the decode and the skip mode. -/
theorem iterRecords_buildArea (ext : Externals) (raw : Bool)
    (fields : List DBFField) (read : Bool) :
    ∀ (recs : List (Nat × List Nat)) (tail : List Nat),
      (∀ r ∈ recs, (r.1 = 0x20 ∨ r.1 = 0x2a) ∧
        r.2.length = recordSize fields) →
      (tail = [] ∨ ∃ t, tail = 0x1a :: t) →
      ∃ l, iterRecords ext raw fields false read (buildArea recs tail) =
          .ok l ∧
        l.length = specActiveMarkerCount recs := by
  intro recs
  induction recs with
  | nil =>
    intro tail hrecs htail
    rcases htail with h | ⟨t, h⟩ <;> subst h
    · exact ⟨[], by rw [buildArea, iterRecords], by
        simp [specActiveMarkerCount]⟩
    · refine ⟨[], ?_, by simp [specActiveMarkerCount]⟩
      rw [buildArea, iterRecords]
      simp
  | cons r rs ih =>
    obtain ⟨m, payload⟩ := r
    intro tail hrecs htail
    obtain ⟨hm, hlen⟩ := hrecs (m, payload) (by simp)
    obtain ⟨l, hl, hcount⟩ :=
      ih tail (fun x hx => hrecs x (by simp [hx])) htail
    have hdrop : (payload ++ buildArea rs tail).drop (recordSize fields) =
        buildArea rs tail := by
      rw [← hlen]
      exact List.drop_left payload _
    simp only at hm
    rcases hm with hm | hm <;> subst hm
    · refine ⟨(if read then
          some (readRecord ext raw fields (payload ++ buildArea rs tail))
        else none) :: l, ?_, ?_⟩
      · rw [buildArea, iterRecords]
        simp only [hdrop, hl]
        norm_num
        rfl
      · simp [specActiveMarkerCount, hcount]
    · refine ⟨l, ?_, ?_⟩
      · rw [buildArea, iterRecords]
        simp only [hdrop, hl]
        norm_num
      · simp [specActiveMarkerCount, hcount]

/-- C3: the number of active records computed by the skip-only traversal
(the lazy iterator's length, which never decodes field bytes — its
outcome is collaborator-independent) equals the number of records the
full decode traversal produces, and both equal the number of marker
bytes in the record area equal to the active marker `0x20`. -/
theorem skip_decode_count_equivalence :
    (∀ ext ext2 raw raw2 fields deleted area,
      recordIteratorLen ext raw fields deleted area =
        recordIteratorLen ext2 raw2 fields deleted area) ∧
    (∀ ext raw fields (recs : List (Nat × List Nat)) tail,
      (∀ r ∈ recs, (r.1 = 0x20 ∨ r.1 = 0x2a) ∧
        r.2.length = recordSize fields) →
      (tail = [] ∨ ∃ t, tail = 0x1a :: t) →
      recordIteratorLen ext raw fields false (buildArea recs tail) =
        .ok (specActiveMarkerCount recs) ∧
      ∃ l, recordIteratorToList ext raw fields false (buildArea recs tail) =
          .ok l ∧
        l.length = specActiveMarkerCount recs) := by
  constructor
  · intro ext ext2 raw raw2 fields deleted area
    unfold recordIteratorLen
    rw [iterRecords_skip_ext ext ext2 raw raw2 fields deleted area]
  · intro ext raw fields recs tail hrecs htail
    constructor
    · obtain ⟨l, hl, hcount⟩ :=
        iterRecords_buildArea ext raw fields false recs tail hrecs htail
      unfold recordIteratorLen
      rw [hl]
      simp [Except.map, hcount]
    · exact iterRecords_buildArea ext raw fields true recs tail hrecs htail

/-- Witness for C3: a record area with two active and one deleted record
(record size 1) followed by the `0x1a` terminator — both traversals
count 2. -/
theorem skip_decode_count_equivalence_witness :
    recordIteratorLen extW false
        [{ name := "a", type := 'C', length := 1, decimal_count := 0 }] false
        (buildArea [(0x20, [65]), (0x2a, [66]), (0x20, [67])] [0x1a]) =
      .ok 2 ∧
    ∃ l, recordIteratorToList extW false
        [{ name := "a", type := 'C', length := 1, decimal_count := 0 }] false
        (buildArea [(0x20, [65]), (0x2a, [66]), (0x20, [67])] [0x1a]) =
          .ok l ∧
      l.length = 2 :=
  skip_decode_count_equivalence.2 extW false
    [{ name := "a", type := 'C', length := 1, decimal_count := 0 }]
    [(0x20, [65]), (0x2a, [66]), (0x20, [67])] [0x1a]
    (by decide) (Or.inr ⟨[], rfl⟩)

end Dbfread
